import Mathlib

/-!
# Verification of the Bedrock add-on manifest loader / version advancer

Shallow embedding of `advance_pack.py`: the dataclass models, the
`ManifestLoader` discovery pipeline, and the four version-advance methods of
`ModifyManifests`.  Python exceptions are modelled with `Except` (loader) and
`Option` (advance, where an uncaught exception would escape the UI callback);
`print` calls are modelled as an output log.  The loader converts raw JSON into
the field types declared by the source's dataclass annotations; a field whose
JSON value does not fit its declared annotation is modelled as a load failure
(in the source such a value is either rejected by the same `try` that guards
the load, or stored and made to crash a later operation).
-/

namespace AdvancePack

/-- JSON values as produced by `json.load`: null, booleans, numbers, strings,
arrays, and objects (ordered key/value lists; manifests have distinct keys and
lookup takes the first match).  Manifest numbers are integers, so fractional
JSON numbers are not modelled. -/
inductive JValue where
  | null : JValue
  | bool (b : Bool) : JValue
  | num (n : Int) : JValue
  | str (s : String) : JValue
  | arr (elems : List JValue) : JValue
  | obj (fields : List (String × JValue)) : JValue

/-- Python `==` between a decoded JSON value and a string literal: string
values compare by contents, every other value compares unequal. -/
def JValue.eqStr : JValue → String → Bool
  | .str s, t => s == t
  | _, _ => false

/-- Python `==` between the result of `d.get(k)` (which is `None` when the key
is absent) and a string literal: `None == "x"` is `False`. -/
def optEqStr : Option JValue → String → Bool
  | some v, t => v.eqStr t
  | none, _ => false

/-- `d.get(k)` on a decoded JSON value: the field (or `none`) when `d` is an
object, an `AttributeError` when `d` is any other value. -/
def dictGet : JValue → String → Except String (Option JValue)
  | .obj fs, k => .ok (fs.lookup k)
  | _, _ => .error "AttributeError"

/-- `d[k]` on a decoded JSON value: `KeyError` when the key is missing,
`TypeError` when `d` is not an object. -/
def dictItem : JValue → String → Except String JValue
  | .obj fs, k =>
    match fs.lookup k with
    | some v => .ok v
    | none => .error ("KeyError: " ++ k)
  | _, _ => .error "TypeError"

/-- Read a JSON value as a string (the `str`-annotated dataclass fields). -/
def JValue.asString : JValue → Except String String
  | .str s => .ok s
  | _ => .error "expected a string"

/-- Read a JSON value as an integer (the `int`-annotated dataclass fields). -/
def JValue.asInt : JValue → Except String Int
  | .num n => .ok n
  | _ => .error "expected an integer"

/-- Read a JSON value as an array. -/
def JValue.asArr : JValue → Except String (List JValue)
  | .arr xs => .ok xs
  | _ => .error "expected an array"

/-- Read a JSON value as a list of integers (the `list[int]` version fields). -/
def JValue.asIntList (v : JValue) : Except String (List Int) := do
  (← v.asArr).mapM JValue.asInt

/-- `ManifestHeader` dataclass: `name`, `description` (defaults to the empty
string), `uuid`, `version`, optional `min_engine_version`. -/
structure ManifestHeader where
  name : String
  description : String
  uuid : String
  version : List Int
  min_engine_version : Option (List Int) := none
  deriving DecidableEq, Repr

/-- The runtime shape of `Dependency.version` (`list[int] | str`): a pinned
semantic-version triple or a free-form string. -/
inductive DepVersion where
  | pinned (v : List Int)
  | tag (s : String)
  deriving DecidableEq, Repr

/-- `Dependency` dataclass: `version` (list or string), optional `uuid`,
optional `module_name`. -/
structure Dependency where
  version : DepVersion
  uuid : Option String := none
  module_name : Option String := none
  deriving DecidableEq, Repr

/-- `ModuleBase` and its four dataclass subclasses, flattened: the subclass is
carried by the `type` tag (`"resources"`, `"client_data"`, `"data"`,
`"script"`); `language` and `entry` exist only on `ScriptModule` and are
`none` on every other variant. -/
structure ModuleBase where
  type : String
  uuid : String
  version : List Int
  description : Option String := none
  language : Option String := none
  entry : Option String := none
  deriving DecidableEq, Repr

/-- `ResourcePack` dataclass. -/
structure ResourcePack where
  format_version : Int
  header : ManifestHeader
  modules : List ModuleBase
  dependencies : Option (List Dependency) := none
  metadata : Option JValue := none

/-- `BehaviorPack` dataclass. -/
structure BehaviorPack where
  format_version : Int
  header : ManifestHeader
  modules : List ModuleBase
  dependencies : Option (List Dependency) := none
  metadata : Option JValue := none

/-- `ManifestLoader._load_header`. -/
def load_header (header : JValue) : Except String ManifestHeader := do
  let name ← (← dictItem header "name").asString
  let description ← match ← dictGet header "description" with
    | some v => v.asString
    | none => pure ""
  let uuid ← (← dictItem header "uuid").asString
  let version ← (← dictItem header "version").asIntList
  let minEngine ← match ← dictGet header "min_engine_version" with
    | some v => do pure (some (← v.asIntList))
    | none => pure none
  pure { name := name, description := description, uuid := uuid,
         version := version, min_engine_version := minEngine }

/-- The shape check on a raw dependency `version` value (`list[int] | str`). -/
def DepVersion.ofJson : JValue → Except String DepVersion
  | .arr xs => do pure (.pinned (← (JValue.arr xs).asIntList))
  | .str s => .ok (.tag s)
  | _ => .error "unsupported dependency version shape"

/-- One iteration of the loop of `ManifestLoader._load_dependencies`. -/
def load_dependency (dep : JValue) : Except String Dependency := do
  let version ← DepVersion.ofJson (← dictItem dep "version")
  let uuid ← match ← dictGet dep "uuid" with
    | some v => do pure (some (← v.asString))
    | none => pure none
  let module_name ← match ← dictGet dep "module_name" with
    | some v => do pure (some (← v.asString))
    | none => pure none
  pure { version := version, uuid := uuid, module_name := module_name }

/-- `ManifestLoader._load_dependencies`: the result list, built left to
right. -/
def load_dependencies : List JValue → Except String (List Dependency)
  | [] => .ok []
  | dep :: rest => do
    let d ← load_dependency dep
    let ds ← load_dependencies rest
    pure (d :: ds)

/-- One iteration of the module loop of `ManifestLoader._load_behavior`:
`some` a parsed module for the recognized tags `"data"` / `"script"`, `none`
(entry omitted) for any other `type` value. -/
def parse_bp_module (m : JValue) : Except String (Option ModuleBase) := do
  let t ← dictItem m "type"
  if t.eqStr "data" then
    let uuid ← (← dictItem m "uuid").asString
    let version ← (← dictItem m "version").asIntList
    let description ← match ← dictGet m "description" with
      | some v => do pure (some (← v.asString))
      | none => pure none
    pure (some { type := "data", uuid := uuid, version := version,
                 description := description })
  else if t.eqStr "script" then
    let uuid ← (← dictItem m "uuid").asString
    let version ← (← dictItem m "version").asIntList
    let description ← match ← dictGet m "description" with
      | some v => do pure (some (← v.asString))
      | none => pure none
    let language ← match ← dictGet m "language" with
      | some v => v.asString
      | none => pure "javascript"
    let entry ← match ← dictGet m "entry" with
      | some v => do pure (some (← v.asString))
      | none => pure none
    pure (some { type := "script", uuid := uuid, version := version,
                 description := description, language := some language,
                 entry := entry })
  else
    pure none

/-- The module loop of `ManifestLoader._load_behavior`, left to right. -/
def parse_bp_modules : List JValue → Except String (List ModuleBase)
  | [] => .ok []
  | m :: rest => do
    match ← parse_bp_module m with
    | some b => do pure (b :: (← parse_bp_modules rest))
    | none => parse_bp_modules rest

/-- One iteration of the module loop of `ManifestLoader._load_resource`:
recognized tags are `"resources"` / `"client_data"`. -/
def parse_rp_module (m : JValue) : Except String (Option ModuleBase) := do
  let t ← dictItem m "type"
  if t.eqStr "resources" then
    let uuid ← (← dictItem m "uuid").asString
    let version ← (← dictItem m "version").asIntList
    let description ← match ← dictGet m "description" with
      | some v => do pure (some (← v.asString))
      | none => pure none
    pure (some { type := "resources", uuid := uuid, version := version,
                 description := description })
  else if t.eqStr "client_data" then
    let uuid ← (← dictItem m "uuid").asString
    let version ← (← dictItem m "version").asIntList
    let description ← match ← dictGet m "description" with
      | some v => do pure (some (← v.asString))
      | none => pure none
    pure (some { type := "client_data", uuid := uuid, version := version,
                 description := description })
  else
    pure none

/-- The module loop of `ManifestLoader._load_resource`, left to right. -/
def parse_rp_modules : List JValue → Except String (List ModuleBase)
  | [] => .ok []
  | m :: rest => do
    match ← parse_rp_module m with
    | some b => do pure (b :: (← parse_rp_modules rest))
    | none => parse_rp_modules rest

/-- `data.get("modules", [])`, then the value the module loops iterate. -/
def getRawModules (data : JValue) : Except String (List JValue) := do
  match ← dictGet data "modules" with
  | some v => v.asArr
  | none => pure []

/-- `data.get("format_version", 2)` as the `int`-annotated field. -/
def getFormatVersion (data : JValue) : Except String Int := do
  match ← dictGet data "format_version" with
  | some v => v.asInt
  | none => pure 2

/-- `self._load_dependencies(data.get("dependencies", [])) if "dependencies"
in data else None`. -/
def getDependencies (data : JValue) : Except String (Option (List Dependency)) := do
  match ← dictGet data "dependencies" with
  | some v => do pure (some (← load_dependencies (← v.asArr)))
  | none => pure none

/-- `ManifestLoader._load_behavior`. -/
def load_behavior (data : JValue) : Except String BehaviorPack := do
  let header ← load_header (← dictItem data "header")
  let rawModules ← getRawModules data
  let modules ← parse_bp_modules rawModules
  let format_version ← getFormatVersion data
  let dependencies ← getDependencies data
  let metadata ← dictGet data "metadata"
  pure { format_version := format_version, header := header, modules := modules,
         dependencies := dependencies, metadata := metadata }

/-- `ManifestLoader._load_resource`. -/
def load_resource (data : JValue) : Except String ResourcePack := do
  let header ← load_header (← dictItem data "header")
  let rawModules ← getRawModules data
  let modules ← parse_rp_modules rawModules
  let format_version ← getFormatVersion data
  let dependencies ← getDependencies data
  let metadata ← dictGet data "metadata"
  pure { format_version := format_version, header := header, modules := modules,
         dependencies := dependencies, metadata := metadata }

/-- Which loader, if any, the classification loop of
`ManifestLoader._load_manifest` selects: the first module whose `type` is
`"data"` classifies the file as a behavior pack, the first whose `type` is
`"resources"` or `"client_data"` as a resource pack. -/
inductive PackKind where
  | behavior : PackKind
  | resource : PackKind
  deriving DecidableEq, Repr

/-- The classification loop of `ManifestLoader._load_manifest`
(`module.get("type")` comparisons, first match returns). -/
def classify_modules : List JValue → Except String (Option PackKind)
  | [] => .ok none
  | m :: rest => do
    let t ← dictGet m "type"
    if optEqStr t "data" then pure (some PackKind.behavior)
    else if optEqStr t "resources" || optEqStr t "client_data" then
      pure (some PackKind.resource)
    else classify_modules rest

/-- The mutable state of a `ManifestLoader` (the two pack slots). -/
structure ManifestLoader where
  behavior_pack : Option BehaviorPack := none
  resource_pack : Option ResourcePack := none

/-- `ManifestLoader._load_manifest` on one decoded file: classifies by the
first pack-defining module and assigns the corresponding slot
unconditionally. -/
def load_manifest (st : ManifestLoader) (data : JValue) : Except String ManifestLoader := do
  let modulesV := (← dictGet data "modules").getD (JValue.arr [])
  let modules ← modulesV.asArr
  match ← classify_modules modules with
  | some PackKind.behavior => do pure { st with behavior_pack := some (← load_behavior data) }
  | some PackKind.resource => do pure { st with resource_pack := some (← load_resource data) }
  | none => pure st

/-- `ManifestLoader.scan`: the files found by `rglob("manifest.json")`, in
traversal order; a file is `none` when opening or JSON-decoding it raises.
Every exception of `_load_manifest` is caught and the loop continues. -/
def scan (st : ManifestLoader) : List (Option JValue) → ManifestLoader
  | [] => st
  | file :: rest =>
    match file with
    | none => scan st rest
    | some data =>
      match load_manifest st data with
      | .ok st2 => scan st2 rest
      | .error _ => scan st rest

/-! ## The version advancer (`ModifyManifests`)

The four advance methods mutate the packs in place, `print` each updated
version list, and return `None`.  They are modelled as functions from the two
optional packs to `Option` of (the updated packs, the list of version lists
printed); `none` models an exception escaping the method (out-of-range index
assignment on a version list — the source then leaves any mutations already
performed behind, a state no property here concerns). -/

/-- `v[i] += 1` on a Python list: `IndexError` out of range. -/
def listIncAt (v : List Int) (i : Nat) : Option (List Int) :=
  if i < v.length then some (v.set i (v.getD i 0 + 1)) else none

/-- `v[i] = x` on a Python list: `IndexError` out of range. -/
def listSetAt (v : List Int) (i : Nat) (x : Int) : Option (List Int) :=
  if i < v.length then some (v.set i x) else none

/-- Python truthiness of an `Optional[list]` dependencies field: `None` and the
empty list are falsy. -/
def depsTruthy : Option (List Dependency) → Bool
  | none => false
  | some l => !l.isEmpty

/-- The Python runtime types a `Dependency.version` guard can meet: `list`
(the type of every list instance), `str` (the type of every str instance), and
the generic-alias object `list[str]`, which is a distinct object equal to
neither.  The source's guard `type(dependency.version) == list[str]` compares
the first two against the third, so it is `False` for every value. -/
inductive PyTypeTag where
  | listType : PyTypeTag
  | strType : PyTypeTag
  | listStrAlias : PyTypeTag
  deriving DecidableEq, Repr

/-- Python `type(v)` for a `Dependency.version` value. -/
def DepVersion.pyType : DepVersion → PyTypeTag
  | .pinned _ => .listType
  | .tag _ => .strType

/-- The module loop of the two minor-advance methods: for every module whose
`uuid` equals the header uuid, `module.version[1] += 1` and the new version is
printed; other modules are untouched. -/
def bump_modules_minor (uuid : String) : List ModuleBase → Option (List ModuleBase × List (List Int))
  | [] => some ([], [])
  | m :: rest =>
    if m.uuid = uuid then do
      let v ← listIncAt m.version 1
      let (ms, out) ← bump_modules_minor uuid rest
      some ({ m with version := v } :: ms, v :: out)
    else do
      let (ms, out) ← bump_modules_minor uuid rest
      some (m :: ms, out)

/-- The module loop of the two major-advance methods: for every module whose
`uuid` equals the header uuid, `module.version[1] += 1; module.version[2] = 0`
and the new version is printed. -/
def bump_modules_major (uuid : String) : List ModuleBase → Option (List ModuleBase × List (List Int))
  | [] => some ([], [])
  | m :: rest =>
    if m.uuid = uuid then do
      let v1 ← listIncAt m.version 1
      let v2 ← listSetAt v1 2 0
      let (ms, out) ← bump_modules_major uuid rest
      some ({ m with version := v2 } :: ms, v2 :: out)
    else do
      let (ms, out) ← bump_modules_major uuid rest
      some (m :: ms, out)

/-- The dependency loop of the two minor-advance methods: the guard is
`dependency.uuid == uuid and type(dependency.version) == list[str]`; its body
(`dependency.version[2] += 1` and a print) runs only when the guard holds. -/
def bump_deps_minor (uuid : String) : List Dependency → Option (List Dependency × List (List Int))
  | [] => some ([], [])
  | d :: rest =>
    if d.uuid = some uuid ∧ d.version.pyType = PyTypeTag.listStrAlias then
      match d.version with
      | .pinned l => do
        let v ← listIncAt l 2
        let (ds, out) ← bump_deps_minor uuid rest
        some ({ d with version := .pinned v } :: ds, v :: out)
      | .tag _ => none
    else do
      let (ds, out) ← bump_deps_minor uuid rest
      some (d :: ds, out)

/-- The dependency loop of the two major-advance methods: same guard, body
`dependency.version[1] += 1; dependency.version[2] = 0` and a print. -/
def bump_deps_major (uuid : String) : List Dependency → Option (List Dependency × List (List Int))
  | [] => some ([], [])
  | d :: rest =>
    if d.uuid = some uuid ∧ d.version.pyType = PyTypeTag.listStrAlias then
      match d.version with
      | .pinned l => do
        let v1 ← listIncAt l 1
        let v2 ← listSetAt v1 2 0
        let (ds, out) ← bump_deps_major uuid rest
        some ({ d with version := .pinned v2 } :: ds, v2 :: out)
      | .tag _ => none
    else do
      let (ds, out) ← bump_deps_major uuid rest
      some (d :: ds, out)

/-- `ModifyManifests._advance_resource_pack_minor`: header `version[2] += 1`,
matching modules `version[1] += 1`, then — only when a behavior pack is given
and both dependency lists are truthy — the dependency loop over
`bp.dependencies`.  The method returns `None`; its observable effects are the
mutations and the printed log. -/
def advance_resource_pack_minor (rp? : Option ResourcePack) (bp? : Option BehaviorPack) :
    Option ((Option ResourcePack × Option BehaviorPack) × List (List Int)) :=
  match rp? with
  | none => some ((none, bp?), [])
  | some rp => do
    let uuid := rp.header.uuid
    let hv ← listIncAt rp.header.version 2
    let (ms, mout) ← bump_modules_minor uuid rp.modules
    let rp2 : ResourcePack := { rp with header := { rp.header with version := hv }, modules := ms }
    match bp? with
    | none => some ((some rp2, none), hv :: mout)
    | some bp =>
      if !depsTruthy bp.dependencies || !depsTruthy rp.dependencies then
        some ((some rp2, some bp), hv :: mout)
      else do
        let (ds, dout) ← bump_deps_minor uuid (bp.dependencies.getD [])
        some ((some rp2, some { bp with dependencies := some ds }), hv :: (mout ++ dout))

/-- `ModifyManifests._advance_resource_pack_major`: header
`version[1] += 1; version[2] = 0`, likewise for matching modules, then the
major dependency loop over `bp.dependencies` under the same guards. -/
def advance_resource_pack_major (rp? : Option ResourcePack) (bp? : Option BehaviorPack) :
    Option ((Option ResourcePack × Option BehaviorPack) × List (List Int)) :=
  match rp? with
  | none => some ((none, bp?), [])
  | some rp => do
    let uuid := rp.header.uuid
    let hv1 ← listIncAt rp.header.version 1
    let hv ← listSetAt hv1 2 0
    let (ms, mout) ← bump_modules_major uuid rp.modules
    let rp2 : ResourcePack := { rp with header := { rp.header with version := hv }, modules := ms }
    match bp? with
    | none => some ((some rp2, none), hv :: mout)
    | some bp =>
      if !depsTruthy bp.dependencies || !depsTruthy rp.dependencies then
        some ((some rp2, some bp), hv :: mout)
      else do
        let (ds, dout) ← bump_deps_major uuid (bp.dependencies.getD [])
        some ((some rp2, some { bp with dependencies := some ds }), hv :: (mout ++ dout))

/-- `ModifyManifests._advance_behavior_pack_minor`: the mirror image — source
pack `bp`, dependency loop over `rp.dependencies`. -/
def advance_behavior_pack_minor (rp? : Option ResourcePack) (bp? : Option BehaviorPack) :
    Option ((Option ResourcePack × Option BehaviorPack) × List (List Int)) :=
  match bp? with
  | none => some ((rp?, none), [])
  | some bp => do
    let uuid := bp.header.uuid
    let hv ← listIncAt bp.header.version 2
    let (ms, mout) ← bump_modules_minor uuid bp.modules
    let bp2 : BehaviorPack := { bp with header := { bp.header with version := hv }, modules := ms }
    match rp? with
    | none => some ((none, some bp2), hv :: mout)
    | some rp =>
      if !depsTruthy rp.dependencies || !depsTruthy bp.dependencies then
        some ((some rp, some bp2), hv :: mout)
      else do
        let (ds, dout) ← bump_deps_minor uuid (rp.dependencies.getD [])
        some ((some { rp with dependencies := some ds }, some bp2), hv :: (mout ++ dout))

/-- `ModifyManifests._advance_behavior_pack_major`. -/
def advance_behavior_pack_major (rp? : Option ResourcePack) (bp? : Option BehaviorPack) :
    Option ((Option ResourcePack × Option BehaviorPack) × List (List Int)) :=
  match bp? with
  | none => some ((rp?, none), [])
  | some bp => do
    let uuid := bp.header.uuid
    let hv1 ← listIncAt bp.header.version 1
    let hv ← listSetAt hv1 2 0
    let (ms, mout) ← bump_modules_major uuid bp.modules
    let bp2 : BehaviorPack := { bp with header := { bp.header with version := hv }, modules := ms }
    match rp? with
    | none => some ((none, some bp2), hv :: mout)
    | some rp =>
      if !depsTruthy rp.dependencies || !depsTruthy bp.dependencies then
        some ((some rp, some bp2), hv :: mout)
      else do
        let (ds, dout) ← bump_deps_major uuid (rp.dependencies.getD [])
        some ((some { rp with dependencies := some ds }, some bp2), hv :: (mout ++ dout))

/-! ## The serializer

The repository has no serializer under `src/`; the spec (§4.4) describes one.
It is modelled here from the spec at the level of the JSON value written: the
printer itself (stable field order, 4-space indent) is deterministic, so two
writes produce byte-identical text exactly when they serialize equal JSON
values. -/

/-- Python truthiness of a JSON value (the spec's "absent or empty" test for
the `dependencies` and `metadata` keys). -/
def JValue.pyTruthy : JValue → Bool
  | .null => false
  | .bool b => b
  | .num n => n != 0
  | .str s => !(s == "")
  | .arr xs => !xs.isEmpty
  | .obj fs => !fs.isEmpty

/-- Modelled from the spec: the Serializer (§4.4) is missing from `src/`.
Header object with `None`-valued optional fields removed entirely
(`min_engine_version` omitted when absent; `description` is always a string
and always emitted). -/
def serialize_header (h : ManifestHeader) : JValue :=
  JValue.obj ([("name", JValue.str h.name),
               ("description", JValue.str h.description),
               ("uuid", JValue.str h.uuid),
               ("version", JValue.arr (h.version.map JValue.num))] ++
    (match h.min_engine_version with
     | some v => [("min_engine_version", JValue.arr (v.map JValue.num))]
     | none => []))

/-- Modelled from the spec: the JSON form of a dependency `version` (pinned
triple or free-form string). -/
def DepVersion.toJson : DepVersion → JValue
  | .pinned v => JValue.arr (v.map JValue.num)
  | .tag s => JValue.str s

/-- Modelled from the spec: a module object, absent optional fields removed
(`language` and `entry` exist only on script modules). -/
def serialize_module (m : ModuleBase) : JValue :=
  JValue.obj ([("type", JValue.str m.type),
               ("uuid", JValue.str m.uuid),
               ("version", JValue.arr (m.version.map JValue.num))] ++
    (match m.description with
     | some d => [("description", JValue.str d)]
     | none => []) ++
    (match m.language with
     | some l => [("language", JValue.str l)]
     | none => []) ++
    (match m.entry with
     | some e => [("entry", JValue.str e)]
     | none => []))

/-- Modelled from the spec: a dependency object, absent optional fields
removed. -/
def serialize_dependency (d : Dependency) : JValue :=
  JValue.obj ([("version", d.version.toJson)] ++
    (match d.uuid with
     | some u => [("uuid", JValue.str u)]
     | none => []) ++
    (match d.module_name with
     | some n => [("module_name", JValue.str n)]
     | none => []))

/-- Modelled from the spec: the behavior-pack object, keys in order
`format_version, header, modules, dependencies?, metadata?`; `dependencies`
and `metadata` omitted entirely when absent or empty. -/
def serialize_behavior (p : BehaviorPack) : JValue :=
  JValue.obj ([("format_version", JValue.num p.format_version),
               ("header", serialize_header p.header),
               ("modules", JValue.arr (p.modules.map serialize_module))] ++
    (if depsTruthy p.dependencies then
       [("dependencies", JValue.arr ((p.dependencies.getD []).map serialize_dependency))]
     else []) ++
    (match p.metadata with
     | some m => if m.pyTruthy then [("metadata", m)] else []
     | none => []))

/-- Modelled from the spec: the resource-pack object, same layout. -/
def serialize_resource (p : ResourcePack) : JValue :=
  JValue.obj ([("format_version", JValue.num p.format_version),
               ("header", serialize_header p.header),
               ("modules", JValue.arr (p.modules.map serialize_module))] ++
    (if depsTruthy p.dependencies then
       [("dependencies", JValue.arr ((p.dependencies.getD []).map serialize_dependency))]
     else []) ++
    (match p.metadata with
     | some m => if m.pyTruthy then [("metadata", m)] else []
     | none => []))

/-- The value constraints the source's module class hierarchy enforces by
construction on a behavior-pack module: `DataModule` fixes `type = "data"`
and has no `language`/`entry`; `ScriptModule` fixes `type = "script"` and its
`language` is always a string. -/
def bpModuleWF (m : ModuleBase) : Bool :=
  (m.type == "data" && m.language == none && m.entry == none) ||
  (m.type == "script" && m.language.isSome)

/-- The constraints on a resource-pack module: `ResourceModule` /
`ClientDataModule`, neither of which has `language` or `entry`. -/
def rpModuleWF (m : ModuleBase) : Bool :=
  (m.type == "resources" || m.type == "client_data") &&
    m.language == none && m.entry == none

/-- A behavior pack every field of which is representable by the source's
dataclasses. -/
def BPWellFormed (p : BehaviorPack) : Bool := p.modules.all bpModuleWF

/-- A resource pack every field of which is representable by the source's
dataclasses. -/
def RPWellFormed (p : ResourcePack) : Bool := p.modules.all rpModuleWF

/-! ## Evaluation lemmas for the two effect monads -/

/-! ## Concrete packs, manifests, and auxiliary definitions used by the
theorems below -/

/-- `v[2] += 1`: what a minor advance does to the header version. -/
def patchIncTransform (v : List Int) : List Int := v.set 2 (v.getD 2 0 + 1)

/-- `v[1] += 1`: what a minor advance does to a matching module's version. -/
def minorIncTransform (v : List Int) : List Int := v.set 1 (v.getD 1 0 + 1)

/-- `v[1] += 1; v[2] = 0`: what a major advance does to every triple it
touches. -/
def majorTransform (v : List Int) : List Int := (minorIncTransform v).set 2 0

/-- A resource pack at version `[1,0,0]` whose single module matches the
header uuid — the input on which the minor advance desynchronizes header and
module. -/
def rpC1 : ResourcePack :=
  { format_version := 2,
    header := { name := "RP", description := "", uuid := "U", version := [1, 0, 0] },
    modules := [{ type := "resources", uuid := "U", version := [1, 0, 0] }] }

/-- The behavior-pack analogue of `rpC1`. -/
def bpC1 : BehaviorPack :=
  { format_version := 2,
    header := { name := "BP", description := "", uuid := "W", version := [2, 0, 0] },
    modules := [{ type := "data", uuid := "W", version := [2, 0, 0] }] }

/-- Source resource pack for the propagation scenario: uuid `"U"`, non-empty
dependency list. -/
def rpC2 : ResourcePack :=
  { format_version := 2,
    header := { name := "RP", description := "", uuid := "U", version := [1, 0, 0] },
    modules := [],
    dependencies := some [{ version := DepVersion.tag "self", uuid := none }] }

/-- Target behavior pack for the propagation scenario: one dependency pinned
at `[1,0,0]` on uuid `"U"` and one string-version dependency `"1.0.0"`. -/
def bpC2 : BehaviorPack :=
  { format_version := 2,
    header := { name := "BP", description := "", uuid := "B", version := [2, 0, 0] },
    modules := [],
    dependencies := some [{ version := DepVersion.pinned [1, 0, 0], uuid := some "U" },
                          { version := DepVersion.tag "1.0.0", uuid := some "U" }] }

/-- A resource pack with a matching and a non-matching module, for major
advances. -/
def rpC5 : ResourcePack :=
  { format_version := 2,
    header := { name := "RP", description := "", uuid := "U", version := [1, 2, 3] },
    modules := [{ type := "resources", uuid := "U", version := [4, 5, 6] },
                { type := "client_data", uuid := "V", version := [7, 8, 9] }] }

/-- The behavior-pack analogue of `rpC5`. -/
def bpC5 : BehaviorPack :=
  { format_version := 2,
    header := { name := "BP", description := "", uuid := "W", version := [2, 0, 0] },
    modules := [{ type := "data", uuid := "W", version := [2, 0, 0] },
                { type := "script", uuid := "X", version := [3, 3, 3],
                  language := some "javascript" }] }

/-- A minimal resource pack (no modules) for observing the printed log. -/
def rpC7 : ResourcePack :=
  { format_version := 2,
    header := { name := "RP", description := "", uuid := "U", version := [1, 0, 0] },
    modules := [] }

/-- Resource pack with a matching module and a non-empty dependency list,
used to exercise an advance with a target present. -/
def rpC7t : ResourcePack :=
  { format_version := 2,
    header := { name := "RP", description := "", uuid := "U", version := [1, 0, 0] },
    modules := [{ type := "resources", uuid := "U", version := [1, 0, 0] }],
    dependencies := some [{ version := DepVersion.tag "d", uuid := none }] }

/-- Behavior pack with a matching module and a pinned dependency on `"U"`. -/
def bpC7t : BehaviorPack :=
  { format_version := 2,
    header := { name := "BP", description := "", uuid := "W", version := [2, 0, 0] },
    modules := [{ type := "data", uuid := "W", version := [2, 0, 0] }],
    dependencies := some [{ version := DepVersion.pinned [1, 0, 0], uuid := some "U" }] }

/-- A fresh `ManifestLoader` (both pack slots start as `None`). -/
def loaderInit : ManifestLoader := {}

/-- A resource-pack manifest file, uuid `"A"`, display name `"RP"`. -/
def m1C3 : JValue :=
  JValue.obj [("format_version", JValue.num 2),
    ("header", JValue.obj [("name", JValue.str "RP"), ("uuid", JValue.str "A"),
      ("version", JValue.arr [JValue.num 1, JValue.num 0, JValue.num 0])]),
    ("modules", JValue.arr [JValue.obj [("type", JValue.str "resources"),
      ("uuid", JValue.str "A"),
      ("version", JValue.arr [JValue.num 1, JValue.num 0, JValue.num 0])]])]

/-- A second resource-pack manifest file, uuid `"B"`, display name `"RP2"`. -/
def m2C3 : JValue :=
  JValue.obj [("format_version", JValue.num 2),
    ("header", JValue.obj [("name", JValue.str "RP2"), ("uuid", JValue.str "B"),
      ("version", JValue.arr [JValue.num 1, JValue.num 0, JValue.num 0])]),
    ("modules", JValue.arr [JValue.obj [("type", JValue.str "client_data"),
      ("uuid", JValue.str "B"),
      ("version", JValue.arr [JValue.num 1, JValue.num 0, JValue.num 0])]])]

/-- The pack `m2C3` loads to. -/
def p2C3 : ResourcePack :=
  { format_version := 2,
    header := { name := "RP2", description := "", uuid := "B", version := [1, 0, 0] },
    modules := [{ type := "client_data", uuid := "B", version := [1, 0, 0] }] }

/-- A manifest whose header lacks the required `uuid` key (its module list
classifies it as a resource pack, so the loader does reach the header). -/
def badC4 : JValue :=
  JValue.obj [("header", JValue.obj [("name", JValue.str "Bad"),
      ("version", JValue.arr [JValue.num 1, JValue.num 0, JValue.num 0])]),
    ("modules", JValue.arr [JValue.obj [("type", JValue.str "resources"),
      ("uuid", JValue.str "C"),
      ("version", JValue.arr [JValue.num 1, JValue.num 0, JValue.num 0])]])]

/-- The module an entry parse contributed, if any. -/
def okSome : Except String (Option ModuleBase) → Option ModuleBase
  | .ok (some b) => some b
  | _ => none

/-- A raw module entry whose `type` key is readable but recognized by neither
branch of the behavior module loop. -/
def bpUnrecognized (m : JValue) : Bool :=
  match dictItem m "type" with
  | .ok t => !(t.eqStr "data") && !(t.eqStr "script")
  | .error _ => false

/-- A raw module entry whose `type` key is readable but recognized by neither
branch of the resource module loop. -/
def rpUnrecognized (m : JValue) : Bool :=
  match dictItem m "type" with
  | .ok t => !(t.eqStr "resources") && !(t.eqStr "client_data")
  | .error _ => false

/-- A raw `data` module entry. -/
def mDataJ : JValue :=
  JValue.obj [("type", JValue.str "data"), ("uuid", JValue.str "U"),
    ("version", JValue.arr [JValue.num 1, JValue.num 0, JValue.num 0])]

/-- A raw module entry with an unrecognized `type` tag. -/
def mWeirdJ : JValue :=
  JValue.obj [("type", JValue.str "interface"), ("uuid", JValue.str "U"),
    ("version", JValue.arr [JValue.num 1, JValue.num 0, JValue.num 0])]

/-- A raw `resources` module entry. -/
def mResJ : JValue :=
  JValue.obj [("type", JValue.str "resources"), ("uuid", JValue.str "A"),
    ("version", JValue.arr [JValue.num 1, JValue.num 0, JValue.num 0])]

/-- A raw module entry whose `type` tag is recognized by the behavior module
loop. -/
def bpRecognized (m : JValue) : Bool :=
  match dictItem m "type" with
  | .ok t => t.eqStr "data" || t.eqStr "script"
  | .error _ => false

/-- A raw module entry whose `type` tag is recognized by the resource module
loop. -/
def rpRecognized (m : JValue) : Bool :=
  match dictItem m "type" with
  | .ok t => t.eqStr "resources" || t.eqStr "client_data"
  | .error _ => false

/-- The entry is an object and the key is absent from it. -/
def lacksKey (m : JValue) (k : String) : Bool :=
  match dictGet m k with
  | .ok none => true
  | _ => false

/-- A raw `data` entry with no `uuid` key. -/
def mNoUuidJ : JValue :=
  JValue.obj [("type", JValue.str "data"),
    ("version", JValue.arr [JValue.num 1, JValue.num 0, JValue.num 0])]

/-- A raw `client_data` entry with no `version` key. -/
def mNoVersionJ : JValue :=
  JValue.obj [("type", JValue.str "client_data"), ("uuid", JValue.str "A")]

/-- A behavior-pack manifest with no `dependencies` key. -/
def mC8a : JValue :=
  JValue.obj [("format_version", JValue.num 2),
    ("header", JValue.obj [("name", JValue.str "BP"), ("uuid", JValue.str "B"),
      ("version", JValue.arr [JValue.num 1, JValue.num 0, JValue.num 0])]),
    ("modules", JValue.arr [mDataJ])]

/-- The same manifest with an explicitly empty `dependencies` list. -/
def mC8b : JValue :=
  JValue.obj [("format_version", JValue.num 2),
    ("header", JValue.obj [("name", JValue.str "BP"), ("uuid", JValue.str "B"),
      ("version", JValue.arr [JValue.num 1, JValue.num 0, JValue.num 0])]),
    ("modules", JValue.arr [mDataJ]),
    ("dependencies", JValue.arr [])]

/-- The pack `mC8a` loads to (`dependencies` absent). -/
def pC8a : BehaviorPack :=
  { format_version := 2,
    header := { name := "BP", description := "", uuid := "B", version := [1, 0, 0] },
    modules := [{ type := "data", uuid := "U", version := [1, 0, 0] }] }

/-- The pack `mC8b` loads to (`dependencies` present but empty). -/
def pC8b : BehaviorPack :=
  { format_version := 2,
    header := { name := "BP", description := "", uuid := "B", version := [1, 0, 0] },
    modules := [{ type := "data", uuid := "U", version := [1, 0, 0] }],
    dependencies := some [] }

/-- The pack actually reconstructed by reloading serialized output: a
dependency list that was absent or empty comes back absent, a metadata value
that was falsy comes back absent; everything else reloads verbatim. -/
def bpNorm (p : BehaviorPack) : BehaviorPack :=
  { p with
    dependencies := if depsTruthy p.dependencies then p.dependencies else none,
    metadata := match p.metadata with
      | some m => if m.pyTruthy then some m else none
      | none => none }

/-- The resource-pack analogue of `bpNorm`. -/
def rpNorm (p : ResourcePack) : ResourcePack :=
  { p with
    dependencies := if depsTruthy p.dependencies then p.dependencies else none,
    metadata := match p.metadata with
      | some m => if m.pyTruthy then some m else none
      | none => none }

/-- A behavior pack exercising every optional field for the round trip. -/
def bpC6 : BehaviorPack :=
  { format_version := 2,
    header := { name := "BP", description := "b", uuid := "B", version := [1, 2, 3],
                min_engine_version := some [1, 21, 0] },
    modules := [{ type := "data", uuid := "B", version := [1, 2, 3] },
                { type := "script", uuid := "S", version := [1, 2, 3],
                  description := some "scripts", language := some "javascript",
                  entry := some "scripts/main.js" }],
    dependencies := some [{ version := DepVersion.pinned [1, 0, 0], uuid := some "A" },
                          { version := DepVersion.tag "1.0.0",
                            module_name := some "other" }],
    metadata := some (JValue.obj [("authors", JValue.arr [JValue.str "k"])]) }

/-- A resource pack exercising every optional field for the round trip. -/
def rpC6 : ResourcePack :=
  { format_version := 2,
    header := { name := "RP", description := "", uuid := "A", version := [1, 0, 0] },
    modules := [{ type := "resources", uuid := "A", version := [1, 0, 0] },
                { type := "client_data", uuid := "C", version := [1, 0, 0],
                  description := some "cd" }],
    dependencies := some [] }

@[simp] theorem exceptBind_ok (a : α) (f : α → Except ε β) :
    (Except.ok a >>= f : Except ε β) = f a := rfl

@[simp] theorem exceptBind_error (e : ε) (f : α → Except ε β) :
    ((Except.error e : Except ε α) >>= f) = Except.error e := rfl

@[simp] theorem exceptPure_eq (a : α) : (pure a : Except ε α) = Except.ok a := rfl

@[simp] theorem optBind_some (a : α) (f : α → Option β) :
    ((some a : Option α) >>= f) = f a := rfl

@[simp] theorem optBind_none (f : α → Option β) :
    ((none : Option α) >>= f) = none := rfl

@[simp] theorem optPure_eq (a : α) : (pure a : Option α) = some a := rfl

/-! ## The version transforms the advancer writes -/

theorem listIncAt_of_lt (v : List Int) (i : Nat) (h : i < v.length) :
    listIncAt v i = some (v.set i (v.getD i 0 + 1)) := by
  simp [listIncAt, h]

theorem listSetAt_of_lt (v : List Int) (i : Nat) (x : Int) (h : i < v.length) :
    listSetAt v i x = some (v.set i x) := by
  simp [listSetAt, h]

theorem depsTruthy_iff (o : Option (List Dependency)) :
    depsTruthy o = true ↔ ∃ l, o = some l ∧ l ≠ [] := by
  cases o with
  | none => simp [depsTruthy]
  | some l => cases l <;> simp [depsTruthy]

/-- `type(x)` of a dependency version is `list` or `str`, never the
generic-alias object `list[str]`: the propagation guard can never hold. -/
theorem DepVersion.pyType_ne_alias (v : DepVersion) :
    v.pyType ≠ PyTypeTag.listStrAlias := by
  cases v <;> simp [DepVersion.pyType]

/-! ## Characterizations of the advance loops -/

theorem bump_modules_minor_eq (uuid : String) (ms : List ModuleBase)
    (h : ∀ m ∈ ms, m.uuid = uuid → 1 < m.version.length) :
    bump_modules_minor uuid ms =
      some (ms.map (fun m => if m.uuid = uuid then
              { m with version := minorIncTransform m.version } else m),
            (ms.filter (fun m => m.uuid == uuid)).map
              (fun m => minorIncTransform m.version)) := by
  induction ms with
  | nil => simp [bump_modules_minor]
  | cons m rest ih =>
    have hrest : ∀ x ∈ rest, x.uuid = uuid → 1 < x.version.length :=
      fun x hx => h x (List.mem_cons_of_mem _ hx)
    by_cases hm : m.uuid = uuid
    · have h1 : 1 < m.version.length := h m (List.mem_cons_self m rest) hm
      simp [bump_modules_minor, hm, listIncAt_of_lt _ _ h1, ih hrest,
        minorIncTransform, List.filter_cons, beq_iff_eq]
    · simp [bump_modules_minor, hm, ih hrest, List.filter_cons, beq_iff_eq]

theorem bump_modules_major_eq (uuid : String) (ms : List ModuleBase)
    (h : ∀ m ∈ ms, m.uuid = uuid → 2 < m.version.length) :
    bump_modules_major uuid ms =
      some (ms.map (fun m => if m.uuid = uuid then
              { m with version := majorTransform m.version } else m),
            (ms.filter (fun m => m.uuid == uuid)).map
              (fun m => majorTransform m.version)) := by
  induction ms with
  | nil => simp [bump_modules_major]
  | cons m rest ih =>
    have hrest : ∀ x ∈ rest, x.uuid = uuid → 2 < x.version.length :=
      fun x hx => h x (List.mem_cons_of_mem _ hx)
    by_cases hm : m.uuid = uuid
    · have h2 : 2 < m.version.length := h m (List.mem_cons_self m rest) hm
      have h1 : 1 < m.version.length := by omega
      simp only [bump_modules_major, hm, if_true, listIncAt_of_lt _ _ h1, optBind_some]
      rw [listSetAt_of_lt _ _ _ (by simpa using h2)]
      simp [ih hrest, majorTransform, minorIncTransform, List.filter_cons, beq_iff_eq, hm]
    · simp [bump_modules_major, hm, ih hrest, List.filter_cons, beq_iff_eq]

/-- The minor dependency loop is dead code: its guard never holds, so every
dependency list passes through unchanged and nothing is printed. -/
theorem bump_deps_minor_eq (uuid : String) (ds : List Dependency) :
    bump_deps_minor uuid ds = some (ds, []) := by
  induction ds with
  | nil => rfl
  | cons d rest ih =>
    have hguard : ¬(d.uuid = some uuid ∧ d.version.pyType = PyTypeTag.listStrAlias) :=
      fun hc => DepVersion.pyType_ne_alias d.version hc.2
    simp [bump_deps_minor, hguard, ih]

/-- The major dependency loop is equally dead. -/
theorem bump_deps_major_eq (uuid : String) (ds : List Dependency) :
    bump_deps_major uuid ds = some (ds, []) := by
  induction ds with
  | nil => rfl
  | cons d rest ih =>
    have hguard : ¬(d.uuid = some uuid ∧ d.version.pyType = PyTypeTag.listStrAlias) :=
      fun hc => DepVersion.pyType_ne_alias d.version hc.2
    simp [bump_deps_major, hguard, ih]

/-- Substituting a truthy `dependencies` field by `some` of its payload is the
identity on the pack. -/
theorem bp_restore_deps (bp : BehaviorPack) (h : depsTruthy bp.dependencies = true) :
    ({ bp with dependencies := some (bp.dependencies.getD []) } : BehaviorPack) = bp := by
  cases bp with
  | mk fv hdr ms dp md =>
    obtain ⟨l, hl, -⟩ := (depsTruthy_iff _).mp h
    have hl' : dp = some l := hl
    subst hl'
    rfl

/-- The resource-pack analogue of `bp_restore_deps`. -/
theorem rp_restore_deps (rp : ResourcePack) (h : depsTruthy rp.dependencies = true) :
    ({ rp with dependencies := some (rp.dependencies.getD []) } : ResourcePack) = rp := by
  cases rp with
  | mk fv hdr ms dp md =>
    obtain ⟨l, hl, -⟩ := (depsTruthy_iff _).mp h
    have hl' : dp = some l := hl
    subst hl'
    rfl

/-! ## Characterizations of the four advance methods -/

theorem advance_rp_minor_eq (rp : ResourcePack) (bp? : Option BehaviorPack)
    (hh : 2 < rp.header.version.length)
    (hm : ∀ m ∈ rp.modules, m.uuid = rp.header.uuid → 1 < m.version.length) :
    advance_resource_pack_minor (some rp) bp? =
      some ((some { rp with
              header := { rp.header with version := patchIncTransform rp.header.version },
              modules := rp.modules.map (fun m => if m.uuid = rp.header.uuid then
                { m with version := minorIncTransform m.version } else m) },
             bp?),
            patchIncTransform rp.header.version ::
              (rp.modules.filter (fun m => m.uuid == rp.header.uuid)).map
                (fun m => minorIncTransform m.version)) := by
  rw [advance_resource_pack_minor, listIncAt_of_lt _ _ hh]
  simp only [optBind_some]
  rw [bump_modules_minor_eq _ _ hm]
  simp only [optBind_some]
  cases bp? with
  | none => simp [patchIncTransform]
  | some bp =>
    by_cases hd : (!depsTruthy bp.dependencies || !depsTruthy rp.dependencies) = true
    · simp [hd, patchIncTransform]
    · have hbd : depsTruthy bp.dependencies = true := by
        cases hb : depsTruthy bp.dependencies <;> simp [hb] at hd ⊢
      simp [hd, bump_deps_minor_eq, patchIncTransform, bp_restore_deps bp hbd]

theorem advance_rp_major_eq (rp : ResourcePack) (bp? : Option BehaviorPack)
    (hh : 2 < rp.header.version.length)
    (hm : ∀ m ∈ rp.modules, m.uuid = rp.header.uuid → 2 < m.version.length) :
    advance_resource_pack_major (some rp) bp? =
      some ((some { rp with
              header := { rp.header with version := majorTransform rp.header.version },
              modules := rp.modules.map (fun m => if m.uuid = rp.header.uuid then
                { m with version := majorTransform m.version } else m) },
             bp?),
            majorTransform rp.header.version ::
              (rp.modules.filter (fun m => m.uuid == rp.header.uuid)).map
                (fun m => majorTransform m.version)) := by
  have h1 : 1 < rp.header.version.length := by omega
  have h2' : 2 < (rp.header.version.set 1 (rp.header.version.getD 1 0 + 1)).length := by
    simpa using hh
  rw [advance_resource_pack_major, listIncAt_of_lt _ _ h1]
  simp only [optBind_some]
  rw [listSetAt_of_lt _ _ _ h2']
  simp only [optBind_some]
  rw [bump_modules_major_eq _ _ hm]
  simp only [optBind_some]
  cases bp? with
  | none => simp [majorTransform, minorIncTransform]
  | some bp =>
    by_cases hd : (!depsTruthy bp.dependencies || !depsTruthy rp.dependencies) = true
    · simp [hd, majorTransform, minorIncTransform]
    · have hbd : depsTruthy bp.dependencies = true := by
        cases hb : depsTruthy bp.dependencies <;> simp [hb] at hd ⊢
      simp [hd, bump_deps_major_eq, majorTransform, minorIncTransform,
        bp_restore_deps bp hbd]

theorem advance_bp_minor_eq (rp? : Option ResourcePack) (bp : BehaviorPack)
    (hh : 2 < bp.header.version.length)
    (hm : ∀ m ∈ bp.modules, m.uuid = bp.header.uuid → 1 < m.version.length) :
    advance_behavior_pack_minor rp? (some bp) =
      some ((rp?,
             some { bp with
              header := { bp.header with version := patchIncTransform bp.header.version },
              modules := bp.modules.map (fun m => if m.uuid = bp.header.uuid then
                { m with version := minorIncTransform m.version } else m) }),
            patchIncTransform bp.header.version ::
              (bp.modules.filter (fun m => m.uuid == bp.header.uuid)).map
                (fun m => minorIncTransform m.version)) := by
  rw [advance_behavior_pack_minor, listIncAt_of_lt _ _ hh]
  simp only [optBind_some]
  rw [bump_modules_minor_eq _ _ hm]
  simp only [optBind_some]
  cases rp? with
  | none => simp [patchIncTransform]
  | some rp =>
    by_cases hd : (!depsTruthy rp.dependencies || !depsTruthy bp.dependencies) = true
    · simp [hd, patchIncTransform]
    · have hrd : depsTruthy rp.dependencies = true := by
        cases hb : depsTruthy rp.dependencies <;> simp [hb] at hd ⊢
      simp [hd, bump_deps_minor_eq, patchIncTransform, rp_restore_deps rp hrd]

theorem advance_bp_major_eq (rp? : Option ResourcePack) (bp : BehaviorPack)
    (hh : 2 < bp.header.version.length)
    (hm : ∀ m ∈ bp.modules, m.uuid = bp.header.uuid → 2 < m.version.length) :
    advance_behavior_pack_major rp? (some bp) =
      some ((rp?,
             some { bp with
              header := { bp.header with version := majorTransform bp.header.version },
              modules := bp.modules.map (fun m => if m.uuid = bp.header.uuid then
                { m with version := majorTransform m.version } else m) }),
            majorTransform bp.header.version ::
              (bp.modules.filter (fun m => m.uuid == bp.header.uuid)).map
                (fun m => majorTransform m.version)) := by
  have h1 : 1 < bp.header.version.length := by omega
  have h2' : 2 < (bp.header.version.set 1 (bp.header.version.getD 1 0 + 1)).length := by
    simpa using hh
  rw [advance_behavior_pack_major, listIncAt_of_lt _ _ h1]
  simp only [optBind_some]
  rw [listSetAt_of_lt _ _ _ h2']
  simp only [optBind_some]
  rw [bump_modules_major_eq _ _ hm]
  simp only [optBind_some]
  cases rp? with
  | none => simp [majorTransform, minorIncTransform]
  | some rp =>
    by_cases hd : (!depsTruthy rp.dependencies || !depsTruthy bp.dependencies) = true
    · simp [hd, majorTransform, minorIncTransform]
    · have hrd : depsTruthy rp.dependencies = true := by
        cases hb : depsTruthy rp.dependencies <;> simp [hb] at hd ⊢
      simp [hd, bump_deps_major_eq, majorTransform, minorIncTransform,
        rp_restore_deps rp hrd]

/-! ## Example packs used as concrete inputs -/

/-! ## Claim C1 -/

/-- C1: the claim says a Minor advance changes only index 2 of every version
triple it touches, applying the identical transform to the header and to each
matching module.  Evaluating the code at a pack whose header and matching
module both sit at version `[1,0,0]` (resource case; `[2,0,0]` behavior
case): the header becomes `[1,0,1]` (index 2) but the matching module becomes
`[1,1,0]` — the module loop increments index 1, not index 2, so the two
triples receive different transforms and index 1 of the module is not left
fixed. -/
theorem C1_minor_advance_bumps_module_index1 :
    advance_resource_pack_minor (some rpC1) none =
      some ((some ({ format_version := 2,
                     header := { name := "RP", description := "", uuid := "U",
                                 version := [1, 0, 1] },
                     modules := [{ type := "resources", uuid := "U",
                                   version := [1, 1, 0] }] } : ResourcePack),
             none),
            [[1, 0, 1], [1, 1, 0]]) ∧
    advance_behavior_pack_minor none (some bpC1) =
      some ((none,
             some ({ format_version := 2,
                     header := { name := "BP", description := "", uuid := "W",
                                 version := [2, 0, 1] },
                     modules := [{ type := "data", uuid := "W",
                                   version := [2, 1, 0] }] } : BehaviorPack)),
            [[2, 0, 1], [2, 1, 0]]) :=
  ⟨rfl, rfl⟩

/-! ## Claim C2 -/

/-- C2: the claim says `advance(R, B, Minor)` turns the pinned dependency
`{uuid: U, version: [1,0,0]}` of the target pack into `[1,0,1]`.  Evaluating
the code on exactly that scenario (both dependency lists non-empty): the
returned target pack still carries `[1,0,0]` — the guard
`type(dependency.version) == list[str]` is `False` for every runtime value,
so no dependency is ever mutated.  (The string-version dependency is indeed
left unchanged, as the claim also says.) -/
theorem C2_minor_advance_never_propagates :
    advance_resource_pack_minor (some rpC2) (some bpC2) =
      some ((some ({ format_version := 2,
                     header := { name := "RP", description := "", uuid := "U",
                                 version := [1, 0, 1] },
                     modules := [],
                     dependencies := some [{ version := DepVersion.tag "self",
                                             uuid := none }] } : ResourcePack),
             some bpC2),
            [[1, 0, 1]]) ∧
    bpC2.dependencies =
      some [{ version := DepVersion.pinned [1, 0, 0], uuid := some "U" },
            { version := DepVersion.tag "1.0.0", uuid := some "U" }] :=
  ⟨rfl, rfl⟩

/-! ## Claim C5 -/

/-- C5: a Major advance with no target pack applies
`v[1] += 1; v[2] = 0` to the header version and to the version of every
module whose uuid equals the header's uuid, leaving other modules untouched;
on a triple `[a,b,c]` this yields `[a, b+1, 0]` — index 2 set to `0`, index 1
incremented by exactly one, index 0 never touched. -/
theorem C5_major_advance_touches_only_minor_and_patch :
    (∀ rp : ResourcePack,
        rp.header.version.length = 3 →
        (∀ m ∈ rp.modules, m.uuid = rp.header.uuid → m.version.length = 3) →
        advance_resource_pack_major (some rp) none =
          some ((some { rp with
                  header := { rp.header with version := majorTransform rp.header.version },
                  modules := rp.modules.map (fun m => if m.uuid = rp.header.uuid then
                    { m with version := majorTransform m.version } else m) },
                 none),
                majorTransform rp.header.version ::
                  (rp.modules.filter (fun m => m.uuid == rp.header.uuid)).map
                    (fun m => majorTransform m.version))) ∧
    (∀ bp : BehaviorPack,
        bp.header.version.length = 3 →
        (∀ m ∈ bp.modules, m.uuid = bp.header.uuid → m.version.length = 3) →
        advance_behavior_pack_major none (some bp) =
          some ((none,
                 some { bp with
                  header := { bp.header with version := majorTransform bp.header.version },
                  modules := bp.modules.map (fun m => if m.uuid = bp.header.uuid then
                    { m with version := majorTransform m.version } else m) }),
                majorTransform bp.header.version ::
                  (bp.modules.filter (fun m => m.uuid == bp.header.uuid)).map
                    (fun m => majorTransform m.version))) ∧
    (∀ a b c : Int, majorTransform [a, b, c] = [a, b + 1, 0]) := by
  refine ⟨?_, ?_, ?_⟩
  · intro rp h3 hm3
    exact advance_rp_major_eq rp none (by rw [h3]; omega)
      (fun m hm hu => by rw [hm3 m hm hu]; omega)
  · intro bp h3 hm3
    exact advance_bp_major_eq none bp (by rw [h3]; omega)
      (fun m hm hu => by rw [hm3 m hm hu]; omega)
  · intro a b c
    rfl

/-- Witness for C5 at concrete packs. -/
theorem C5_major_advance_touches_only_minor_and_patch_witness :
    (advance_resource_pack_major (some rpC5) none =
      some ((some { rpC5 with
              header := { rpC5.header with version := majorTransform rpC5.header.version },
              modules := rpC5.modules.map (fun m => if m.uuid = rpC5.header.uuid then
                { m with version := majorTransform m.version } else m) },
             none),
            majorTransform rpC5.header.version ::
              (rpC5.modules.filter (fun m => m.uuid == rpC5.header.uuid)).map
                (fun m => majorTransform m.version))) ∧
    (advance_behavior_pack_major none (some bpC5) =
      some ((none,
             some { bpC5 with
              header := { bpC5.header with version := majorTransform bpC5.header.version },
              modules := bpC5.modules.map (fun m => if m.uuid = bpC5.header.uuid then
                { m with version := majorTransform m.version } else m) }),
            majorTransform bpC5.header.version ::
              (bpC5.modules.filter (fun m => m.uuid == bpC5.header.uuid)).map
                (fun m => majorTransform m.version))) :=
  ⟨C5_major_advance_touches_only_minor_and_patch.1 rpC5 rfl (by decide),
   C5_major_advance_touches_only_minor_and_patch.2.1 bpC5 rfl (by decide)⟩

/-! ## Claim C7 -/

/-- C7 counterexample: the claim says every advance call returns a report and
has no observable side effect beyond the three mutations.  This concrete
Minor advance prints the updated header version: its printed log is
`[[1,0,1]]`, not empty — an observable side effect beyond the mutations (and
the source method returns `None`, not a report). -/
theorem C7_counterexample_print_side_effect :
    (advance_resource_pack_minor (some rpC7) none).map (fun r => r.2) = some [[1, 0, 1]] ∧
    (some [[1, 0, 1]] : Option (List (List Int))) ≠ some [] :=
  ⟨rfl, by decide⟩

/-- C7 amended: every advance call (on triple-shaped versions) returns no
report; its effects are exactly the header-version mutation, the mutation of
every matching module's version, and the printed log of the updated versions
— the target pack is returned unchanged (its dependencies are never mutated,
the propagation guard being unsatisfiable). -/
theorem C7_advance_effects_are_mutations_plus_log :
    (∀ (rp : ResourcePack) (bp? : Option BehaviorPack),
        rp.header.version.length = 3 →
        (∀ m ∈ rp.modules, m.uuid = rp.header.uuid → m.version.length = 3) →
        advance_resource_pack_minor (some rp) bp? =
          some ((some { rp with
                  header := { rp.header with version := patchIncTransform rp.header.version },
                  modules := rp.modules.map (fun m => if m.uuid = rp.header.uuid then
                    { m with version := minorIncTransform m.version } else m) },
                 bp?),
                patchIncTransform rp.header.version ::
                  (rp.modules.filter (fun m => m.uuid == rp.header.uuid)).map
                    (fun m => minorIncTransform m.version))) ∧
    (∀ (rp : ResourcePack) (bp? : Option BehaviorPack),
        rp.header.version.length = 3 →
        (∀ m ∈ rp.modules, m.uuid = rp.header.uuid → m.version.length = 3) →
        advance_resource_pack_major (some rp) bp? =
          some ((some { rp with
                  header := { rp.header with version := majorTransform rp.header.version },
                  modules := rp.modules.map (fun m => if m.uuid = rp.header.uuid then
                    { m with version := majorTransform m.version } else m) },
                 bp?),
                majorTransform rp.header.version ::
                  (rp.modules.filter (fun m => m.uuid == rp.header.uuid)).map
                    (fun m => majorTransform m.version))) ∧
    (∀ (bp : BehaviorPack) (rp? : Option ResourcePack),
        bp.header.version.length = 3 →
        (∀ m ∈ bp.modules, m.uuid = bp.header.uuid → m.version.length = 3) →
        advance_behavior_pack_minor rp? (some bp) =
          some ((rp?,
                 some { bp with
                  header := { bp.header with version := patchIncTransform bp.header.version },
                  modules := bp.modules.map (fun m => if m.uuid = bp.header.uuid then
                    { m with version := minorIncTransform m.version } else m) }),
                patchIncTransform bp.header.version ::
                  (bp.modules.filter (fun m => m.uuid == bp.header.uuid)).map
                    (fun m => minorIncTransform m.version))) ∧
    (∀ (bp : BehaviorPack) (rp? : Option ResourcePack),
        bp.header.version.length = 3 →
        (∀ m ∈ bp.modules, m.uuid = bp.header.uuid → m.version.length = 3) →
        advance_behavior_pack_major rp? (some bp) =
          some ((rp?,
                 some { bp with
                  header := { bp.header with version := majorTransform bp.header.version },
                  modules := bp.modules.map (fun m => if m.uuid = bp.header.uuid then
                    { m with version := majorTransform m.version } else m) }),
                majorTransform bp.header.version ::
                  (bp.modules.filter (fun m => m.uuid == bp.header.uuid)).map
                    (fun m => majorTransform m.version))) := by
  refine ⟨?_, ?_, ?_, ?_⟩
  · intro rp bp? h3 hm3
    exact advance_rp_minor_eq rp bp? (by rw [h3]; omega)
      (fun m hm hu => by rw [hm3 m hm hu]; omega)
  · intro rp bp? h3 hm3
    exact advance_rp_major_eq rp bp? (by rw [h3]; omega)
      (fun m hm hu => by rw [hm3 m hm hu]; omega)
  · intro bp rp? h3 hm3
    exact advance_bp_minor_eq rp? bp (by rw [h3]; omega)
      (fun m hm hu => by rw [hm3 m hm hu]; omega)
  · intro bp rp? h3 hm3
    exact advance_bp_major_eq rp? bp (by rw [h3]; omega)
      (fun m hm hu => by rw [hm3 m hm hu]; omega)

/-- Witness for the amended C7 at concrete packs, targets present and both
dependency lists non-empty. -/
theorem C7_advance_effects_are_mutations_plus_log_witness :
    (advance_resource_pack_minor (some rpC7t) (some bpC7t) =
      some ((some { rpC7t with
              header := { rpC7t.header with version := patchIncTransform rpC7t.header.version },
              modules := rpC7t.modules.map (fun m => if m.uuid = rpC7t.header.uuid then
                { m with version := minorIncTransform m.version } else m) },
             some bpC7t),
            patchIncTransform rpC7t.header.version ::
              (rpC7t.modules.filter (fun m => m.uuid == rpC7t.header.uuid)).map
                (fun m => minorIncTransform m.version))) ∧
    (advance_resource_pack_major (some rpC7t) (some bpC7t) =
      some ((some { rpC7t with
              header := { rpC7t.header with version := majorTransform rpC7t.header.version },
              modules := rpC7t.modules.map (fun m => if m.uuid = rpC7t.header.uuid then
                { m with version := majorTransform m.version } else m) },
             some bpC7t),
            majorTransform rpC7t.header.version ::
              (rpC7t.modules.filter (fun m => m.uuid == rpC7t.header.uuid)).map
                (fun m => majorTransform m.version))) ∧
    (advance_behavior_pack_minor (some rpC7t) (some bpC7t) =
      some ((some rpC7t,
             some { bpC7t with
              header := { bpC7t.header with version := patchIncTransform bpC7t.header.version },
              modules := bpC7t.modules.map (fun m => if m.uuid = bpC7t.header.uuid then
                { m with version := minorIncTransform m.version } else m) }),
            patchIncTransform bpC7t.header.version ::
              (bpC7t.modules.filter (fun m => m.uuid == bpC7t.header.uuid)).map
                (fun m => minorIncTransform m.version))) ∧
    (advance_behavior_pack_major (some rpC7t) (some bpC7t) =
      some ((some rpC7t,
             some { bpC7t with
              header := { bpC7t.header with version := majorTransform bpC7t.header.version },
              modules := bpC7t.modules.map (fun m => if m.uuid = bpC7t.header.uuid then
                { m with version := majorTransform m.version } else m) }),
            majorTransform bpC7t.header.version ::
              (bpC7t.modules.filter (fun m => m.uuid == bpC7t.header.uuid)).map
                (fun m => majorTransform m.version))) :=
  ⟨C7_advance_effects_are_mutations_plus_log.1 rpC7t (some bpC7t) rfl (by decide),
   C7_advance_effects_are_mutations_plus_log.2.1 rpC7t (some bpC7t) rfl (by decide),
   C7_advance_effects_are_mutations_plus_log.2.2.1 bpC7t (some rpC7t) rfl (by decide),
   C7_advance_effects_are_mutations_plus_log.2.2.2 bpC7t (some rpC7t) rfl (by decide)⟩

/-! ## Scan behaviour: claims C3 and C4 -/

/-- `scan st (as ++ bs)` processes `as` first, then `bs` from the state
reached. -/
theorem scan_append (st : ManifestLoader) (as bs : List (Option JValue)) :
    scan st (as ++ bs) = scan (scan st as) bs := by
  induction as generalizing st with
  | nil => rfl
  | cons f rest ih =>
    cases f with
    | none => simpa [scan] using ih st
    | some data =>
      cases h : load_manifest st data with
      | ok st2 => simp [scan, h, ih]
      | error e => simp [scan, h, ih]

/-- C3 counterexample: the claim says the first manifest of a kind
encountered wins and later ones are ignored.  Scanning the resource manifest
`m1C3` alone yields the pack named `"RP"`; scanning `m1C3` followed by the
second resource manifest `m2C3` yields `"RP2"` — the later manifest replaced
the earlier pack instead of being ignored. -/
theorem C3_counterexample_second_resource_manifest_replaces_first :
    ((scan loaderInit [some m1C3]).resource_pack).map (fun p => p.header.name) = some "RP" ∧
    ((scan loaderInit [some m1C3, some m2C3]).resource_pack).map (fun p => p.header.name) =
      some "RP2" :=
  ⟨rfl, rfl⟩

/-- C3 amended: the last manifest of a kind wins — a manifest that loads as a
resource (resp. behavior) pack `r`, scanned after any list of files, leaves
the scan state equal to that of the earlier files with the resource
(resp. behavior) slot overwritten by `r`. -/
theorem C3_last_manifest_of_kind_wins :
    (∀ (st : ManifestLoader) (files : List (Option JValue)) (data : JValue) (r : ResourcePack),
        (∀ s : ManifestLoader, load_manifest s data = Except.ok { s with resource_pack := some r }) →
        scan st (files ++ [some data]) = { scan st files with resource_pack := some r }) ∧
    (∀ (st : ManifestLoader) (files : List (Option JValue)) (data : JValue) (b : BehaviorPack),
        (∀ s : ManifestLoader, load_manifest s data = Except.ok { s with behavior_pack := some b }) →
        scan st (files ++ [some data]) = { scan st files with behavior_pack := some b }) := by
  constructor
  · intro st files data r h
    rw [scan_append]
    simp [scan, h]
  · intro st files data b h
    rw [scan_append]
    simp [scan, h]

/-- Witness for the amended C3: the concrete two-resource-manifest scan. -/
theorem C3_last_manifest_of_kind_wins_witness :
    scan loaderInit ([some m1C3] ++ [some m2C3]) =
      { scan loaderInit [some m1C3] with resource_pack := some p2C3 } :=
  C3_last_manifest_of_kind_wins.1 loaderInit [some m1C3] m2C3 p2C3 (fun _ => rfl)

/-- C4: `scan` never lets an exception escape — a file that fails to decode
(`none`) or whose load raises (any decode or required-field error, such as a
header lacking `uuid`) is skipped, and scanning continues over the remaining
files exactly as if the failing file were absent. -/
theorem C4_scan_skips_failing_file_and_continues :
    ∀ (st : ManifestLoader) (f : Option JValue) (files : List (Option JValue)),
      (f = none ∨ ∃ data e, f = some data ∧ load_manifest st data = Except.error e) →
      scan st (f :: files) = scan st files := by
  intro st f files h
  rcases h with h | ⟨data, e, rfl, herr⟩
  · subst h
    rfl
  · simp [scan, herr]

/-- Witness for C4: the manifest with a missing header uuid is skipped and the
following file is still processed. -/
theorem C4_scan_skips_failing_file_and_continues_witness :
    scan loaderInit [some badC4, some m2C3] = scan loaderInit [some m2C3] :=
  C4_scan_skips_failing_file_and_continues loaderInit (some badC4) [some m2C3]
    (Or.inr ⟨badC4, "KeyError: uuid", rfl, rfl⟩)

/-! ## Module-loop lemmas: claims C9 and C10 -/

/-- Inversion of a successful `Except` bind. -/
theorem exceptBind_inv {α β : Type} {x : Except String α} {f : α → Except String β} {b : β}
    (h : (x >>= f) = Except.ok b) : ∃ a, x = Except.ok a ∧ f a = Except.ok b := by
  cases x with
  | error e => simp at h
  | ok a => exact ⟨a, rfl, h⟩

theorem parse_bp_module_unrecognized (m : JValue) (h : bpUnrecognized m = true) :
    parse_bp_module m = Except.ok none := by
  unfold bpUnrecognized at h
  cases ht : dictItem m "type" with
  | error e => rw [ht] at h; simp at h
  | ok t =>
    rw [ht] at h
    simp only [Bool.and_eq_true, Bool.not_eq_true'] at h
    unfold parse_bp_module
    rw [ht]
    simp [h.1, h.2]

theorem parse_rp_module_unrecognized (m : JValue) (h : rpUnrecognized m = true) :
    parse_rp_module m = Except.ok none := by
  unfold rpUnrecognized at h
  cases ht : dictItem m "type" with
  | error e => rw [ht] at h; simp at h
  | ok t =>
    rw [ht] at h
    simp only [Bool.and_eq_true, Bool.not_eq_true'] at h
    unfold parse_rp_module
    rw [ht]
    simp [h.1, h.2]

theorem parse_bp_modules_cons (m : JValue) (rest : List JValue) :
    parse_bp_modules (m :: rest) =
      match parse_bp_module m with
      | .error e => .error e
      | .ok none => parse_bp_modules rest
      | .ok (some b) =>
        match parse_bp_modules rest with
        | .error e => .error e
        | .ok out => .ok (b :: out) := by
  cases hm : parse_bp_module m with
  | error e => simp [parse_bp_modules, hm]
  | ok ob =>
    cases ob with
    | none => simp [parse_bp_modules, hm]
    | some b =>
      cases hr : parse_bp_modules rest with
      | error e => simp [parse_bp_modules, hm, hr]
      | ok out => simp [parse_bp_modules, hm, hr]

theorem parse_rp_modules_cons (m : JValue) (rest : List JValue) :
    parse_rp_modules (m :: rest) =
      match parse_rp_module m with
      | .error e => .error e
      | .ok none => parse_rp_modules rest
      | .ok (some b) =>
        match parse_rp_modules rest with
        | .error e => .error e
        | .ok out => .ok (b :: out) := by
  cases hm : parse_rp_module m with
  | error e => simp [parse_rp_modules, hm]
  | ok ob =>
    cases ob with
    | none => simp [parse_rp_modules, hm]
    | some b =>
      cases hr : parse_rp_modules rest with
      | error e => simp [parse_rp_modules, hm, hr]
      | ok out => simp [parse_rp_modules, hm, hr]

theorem parse_bp_modules_skip (ms1 ms2 : List JValue) (m : JValue)
    (h : bpUnrecognized m = true) :
    parse_bp_modules (ms1 ++ m :: ms2) = parse_bp_modules (ms1 ++ ms2) := by
  induction ms1 with
  | nil =>
    simp only [List.nil_append]
    rw [parse_bp_modules_cons, parse_bp_module_unrecognized m h]
  | cons x rest ih =>
    simp only [List.cons_append]
    rw [parse_bp_modules_cons, parse_bp_modules_cons, ih]

theorem parse_rp_modules_skip (ms1 ms2 : List JValue) (m : JValue)
    (h : rpUnrecognized m = true) :
    parse_rp_modules (ms1 ++ m :: ms2) = parse_rp_modules (ms1 ++ ms2) := by
  induction ms1 with
  | nil =>
    simp only [List.nil_append]
    rw [parse_rp_modules_cons, parse_rp_module_unrecognized m h]
  | cons x rest ih =>
    simp only [List.cons_append]
    rw [parse_rp_modules_cons, parse_rp_modules_cons, ih]

theorem parse_bp_modules_exact (ms : List JValue) (out : List ModuleBase)
    (h : parse_bp_modules ms = Except.ok out) :
    out = ms.filterMap (fun m => okSome (parse_bp_module m)) := by
  induction ms generalizing out with
  | nil =>
    simp only [parse_bp_modules, Except.ok.injEq] at h
    simp [← h]
  | cons m rest ih =>
    rw [parse_bp_modules_cons] at h
    cases hm : parse_bp_module m with
    | error e => rw [hm] at h; cases h
    | ok ob =>
      rw [hm] at h
      cases ob with
      | none =>
        simp only [List.filterMap_cons, okSome, hm]
        exact ih _ h
      | some b =>
        cases hr : parse_bp_modules rest with
        | error e => rw [hr] at h; cases h
        | ok out2 =>
          rw [hr] at h
          simp only [Except.ok.injEq] at h
          subst h
          have hf : okSome (parse_bp_module m) = some b := by rw [hm]; rfl
          simp [List.filterMap_cons, hf, ih _ hr]

theorem parse_rp_modules_exact (ms : List JValue) (out : List ModuleBase)
    (h : parse_rp_modules ms = Except.ok out) :
    out = ms.filterMap (fun m => okSome (parse_rp_module m)) := by
  induction ms generalizing out with
  | nil =>
    simp only [parse_rp_modules, Except.ok.injEq] at h
    simp [← h]
  | cons m rest ih =>
    rw [parse_rp_modules_cons] at h
    cases hm : parse_rp_module m with
    | error e => rw [hm] at h; cases h
    | ok ob =>
      rw [hm] at h
      cases ob with
      | none =>
        simp only [List.filterMap_cons, okSome, hm]
        exact ih _ h
      | some b =>
        cases hr : parse_rp_modules rest with
        | error e => rw [hr] at h; cases h
        | ok out2 =>
          rw [hr] at h
          simp only [Except.ok.injEq] at h
          subst h
          have hf : okSome (parse_rp_module m) = some b := by rw [hm]; rfl
          simp [List.filterMap_cons, hf, ih _ hr]

/-- C9: a module entry whose `type` is unrecognized for the pack kind being
parsed is omitted without error — parsing a modules array with such an entry
inserted anywhere gives exactly the result of parsing the array without it —
and a successful parse returns exactly the recognized entries, in their
original order. -/
theorem C9_unrecognized_module_entries_are_omitted :
    (∀ (ms1 ms2 : List JValue) (m : JValue), bpUnrecognized m = true →
        parse_bp_modules (ms1 ++ m :: ms2) = parse_bp_modules (ms1 ++ ms2)) ∧
    (∀ (ms : List JValue) (out : List ModuleBase), parse_bp_modules ms = Except.ok out →
        out = ms.filterMap (fun m => okSome (parse_bp_module m))) ∧
    (∀ (ms1 ms2 : List JValue) (m : JValue), rpUnrecognized m = true →
        parse_rp_modules (ms1 ++ m :: ms2) = parse_rp_modules (ms1 ++ ms2)) ∧
    (∀ (ms : List JValue) (out : List ModuleBase), parse_rp_modules ms = Except.ok out →
        out = ms.filterMap (fun m => okSome (parse_rp_module m))) :=
  ⟨parse_bp_modules_skip, parse_bp_modules_exact,
   parse_rp_modules_skip, parse_rp_modules_exact⟩

/-- Witness for C9 on concrete module arrays. -/
theorem C9_unrecognized_module_entries_are_omitted_witness :
    (parse_bp_modules ([mDataJ] ++ mWeirdJ :: []) = parse_bp_modules ([mDataJ] ++ [])) ∧
    ([({ type := "data", uuid := "U", version := [1, 0, 0] } : ModuleBase)] =
      List.filterMap (fun m => okSome (parse_bp_module m)) [mDataJ, mWeirdJ]) ∧
    (parse_rp_modules ([mResJ] ++ mWeirdJ :: []) = parse_rp_modules ([mResJ] ++ [])) ∧
    ([({ type := "resources", uuid := "A", version := [1, 0, 0] } : ModuleBase)] =
      List.filterMap (fun m => okSome (parse_rp_module m)) [mResJ, mWeirdJ]) :=
  ⟨C9_unrecognized_module_entries_are_omitted.1 [mDataJ] [] mWeirdJ rfl,
   C9_unrecognized_module_entries_are_omitted.2.1 [mDataJ, mWeirdJ] _ rfl,
   C9_unrecognized_module_entries_are_omitted.2.2.1 [mResJ] [] mWeirdJ rfl,
   C9_unrecognized_module_entries_are_omitted.2.2.2 [mResJ, mWeirdJ] _ rfl⟩

theorem lacksKey_lookup {fs : List (String × JValue)} {k : String}
    (h : lacksKey (JValue.obj fs) k = true) : fs.lookup k = none := by
  cases hx : fs.lookup k with
  | none => rfl
  | some v => simp [lacksKey, dictGet, hx] at h

theorem parse_bp_module_missing_key (m : JValue)
    (hrec : bpRecognized m = true)
    (hlack : lacksKey m "uuid" = true ∨ lacksKey m "version" = true) :
    ∃ e, parse_bp_module m = Except.error e := by
  unfold bpRecognized at hrec
  cases ht : dictItem m "type" with
  | error e => rw [ht] at hrec; simp at hrec
  | ok t =>
    rw [ht] at hrec
    obtain ⟨fs, rfl⟩ : ∃ fs, m = JValue.obj fs := by
      cases m
      case obj fs => exact ⟨fs, rfl⟩
      all_goals simp [dictItem] at ht
    rw [Bool.or_eq_true] at hrec
    unfold parse_bp_module
    rw [ht]
    simp only [exceptBind_ok]
    rcases hrec with hdata | hscript
    · rw [if_pos hdata]
      rcases hlack with hu | hv
      · exact ⟨"KeyError: uuid", by simp [dictItem, lacksKey_lookup hu]⟩
      · cases hx : fs.lookup "uuid" with
        | none => exact ⟨"KeyError: uuid", by simp [dictItem, hx]⟩
        | some uv =>
          cases hs : uv.asString with
          | error e => exact ⟨e, by simp [dictItem, hx, hs]⟩
          | ok s =>
            exact ⟨"KeyError: version", by simp [dictItem, hx, hs, lacksKey_lookup hv]⟩
    · have hnd : t.eqStr "data" = false := by
        cases t <;> simp_all [JValue.eqStr]
      rw [if_neg (by simp [hnd]), if_pos hscript]
      rcases hlack with hu | hv
      · exact ⟨"KeyError: uuid", by simp [dictItem, lacksKey_lookup hu]⟩
      · cases hx : fs.lookup "uuid" with
        | none => exact ⟨"KeyError: uuid", by simp [dictItem, hx]⟩
        | some uv =>
          cases hs : uv.asString with
          | error e => exact ⟨e, by simp [dictItem, hx, hs]⟩
          | ok s =>
            exact ⟨"KeyError: version", by simp [dictItem, hx, hs, lacksKey_lookup hv]⟩

theorem parse_rp_module_missing_key (m : JValue)
    (hrec : rpRecognized m = true)
    (hlack : lacksKey m "uuid" = true ∨ lacksKey m "version" = true) :
    ∃ e, parse_rp_module m = Except.error e := by
  unfold rpRecognized at hrec
  cases ht : dictItem m "type" with
  | error e => rw [ht] at hrec; simp at hrec
  | ok t =>
    rw [ht] at hrec
    obtain ⟨fs, rfl⟩ : ∃ fs, m = JValue.obj fs := by
      cases m
      case obj fs => exact ⟨fs, rfl⟩
      all_goals simp [dictItem] at ht
    rw [Bool.or_eq_true] at hrec
    unfold parse_rp_module
    rw [ht]
    simp only [exceptBind_ok]
    rcases hrec with hres | hcd
    · rw [if_pos hres]
      rcases hlack with hu | hv
      · exact ⟨"KeyError: uuid", by simp [dictItem, lacksKey_lookup hu]⟩
      · cases hx : fs.lookup "uuid" with
        | none => exact ⟨"KeyError: uuid", by simp [dictItem, hx]⟩
        | some uv =>
          cases hs : uv.asString with
          | error e => exact ⟨e, by simp [dictItem, hx, hs]⟩
          | ok s =>
            exact ⟨"KeyError: version", by simp [dictItem, hx, hs, lacksKey_lookup hv]⟩
    · have hnr : t.eqStr "resources" = false := by
        cases t <;> simp_all [JValue.eqStr]
      rw [if_neg (by simp [hnr]), if_pos hcd]
      rcases hlack with hu | hv
      · exact ⟨"KeyError: uuid", by simp [dictItem, lacksKey_lookup hu]⟩
      · cases hx : fs.lookup "uuid" with
        | none => exact ⟨"KeyError: uuid", by simp [dictItem, hx]⟩
        | some uv =>
          cases hs : uv.asString with
          | error e => exact ⟨e, by simp [dictItem, hx, hs]⟩
          | ok s =>
            exact ⟨"KeyError: version", by simp [dictItem, hx, hs, lacksKey_lookup hv]⟩

theorem parse_bp_modules_missing_key (ms1 ms2 : List JValue) (m : JValue)
    (hrec : bpRecognized m = true)
    (hlack : lacksKey m "uuid" = true ∨ lacksKey m "version" = true) :
    ∃ e, parse_bp_modules (ms1 ++ m :: ms2) = Except.error e := by
  induction ms1 with
  | nil =>
    obtain ⟨e, he⟩ := parse_bp_module_missing_key m hrec hlack
    exact ⟨e, by rw [List.nil_append, parse_bp_modules_cons, he]⟩
  | cons x rest ih =>
    obtain ⟨e, he⟩ := ih
    rw [List.cons_append, parse_bp_modules_cons]
    cases hx : parse_bp_module x with
    | error e2 => exact ⟨e2, rfl⟩
    | ok ob =>
      cases ob with
      | none => exact ⟨e, he⟩
      | some b => exact ⟨e, by rw [he]⟩

theorem parse_rp_modules_missing_key (ms1 ms2 : List JValue) (m : JValue)
    (hrec : rpRecognized m = true)
    (hlack : lacksKey m "uuid" = true ∨ lacksKey m "version" = true) :
    ∃ e, parse_rp_modules (ms1 ++ m :: ms2) = Except.error e := by
  induction ms1 with
  | nil =>
    obtain ⟨e, he⟩ := parse_rp_module_missing_key m hrec hlack
    exact ⟨e, by rw [List.nil_append, parse_rp_modules_cons, he]⟩
  | cons x rest ih =>
    obtain ⟨e, he⟩ := ih
    rw [List.cons_append, parse_rp_modules_cons]
    cases hx : parse_rp_module x with
    | error e2 => exact ⟨e2, rfl⟩
    | ok ob =>
      cases ob with
      | none => exact ⟨e, he⟩
      | some b => exact ⟨e, by rw [he]⟩

/-- C10: a recognized module entry (its `type` tag is `data`/`script` for a
behavior pack, `resources`/`client_data` for a resource pack) that lacks a
`uuid` or a `version` key makes the whole module-array parse fail, whatever
surrounds it — so every module of a loader-produced pack carries both fields
(in this embedding `ModuleBase.uuid` and `ModuleBase.version` are total), and
an advance never meets a module with no version. -/
theorem C10_recognized_module_missing_key_fails_load :
    (∀ (ms1 ms2 : List JValue) (m : JValue), bpRecognized m = true →
        (lacksKey m "uuid" = true ∨ lacksKey m "version" = true) →
        ∃ e, parse_bp_modules (ms1 ++ m :: ms2) = Except.error e) ∧
    (∀ (ms1 ms2 : List JValue) (m : JValue), rpRecognized m = true →
        (lacksKey m "uuid" = true ∨ lacksKey m "version" = true) →
        ∃ e, parse_rp_modules (ms1 ++ m :: ms2) = Except.error e) :=
  ⟨parse_bp_modules_missing_key, parse_rp_modules_missing_key⟩

/-- Witness for C10 on concrete module arrays. -/
theorem C10_recognized_module_missing_key_fails_load_witness :
    (∃ e, parse_bp_modules ([mDataJ] ++ mNoUuidJ :: []) = Except.error e) ∧
    (∃ e, parse_rp_modules ([mResJ] ++ mNoVersionJ :: []) = Except.error e) :=
  ⟨C10_recognized_module_missing_key_fails_load.1 [mDataJ] [] mNoUuidJ rfl (Or.inl rfl),
   C10_recognized_module_missing_key_fails_load.2 [mResJ] [] mNoVersionJ rfl (Or.inr rfl)⟩

/-! ## Claim C8 -/

theorem getDependencies_none (data : JValue)
    (h : dictGet data "dependencies" = Except.ok none) :
    getDependencies data = Except.ok none := by
  unfold getDependencies
  rw [h]
  rfl

theorem getDependencies_empty (data : JValue)
    (h : dictGet data "dependencies" = Except.ok (some (JValue.arr []))) :
    getDependencies data = Except.ok (some []) := by
  unfold getDependencies
  rw [h]
  rfl

/-- C8: on a successfully loaded manifest, the pack's `dependencies` field is
`None` exactly when the `dependencies` key is absent from the JSON object; a
present-but-empty `dependencies` list loads as the empty list, distinct from
absent. -/
theorem C8_dependencies_absent_vs_present_empty :
    (∀ (data : JValue) (p : BehaviorPack), load_behavior data = Except.ok p →
        (dictGet data "dependencies" = Except.ok none → p.dependencies = none) ∧
        (dictGet data "dependencies" = Except.ok (some (JValue.arr [])) →
          p.dependencies = some [])) ∧
    (∀ (data : JValue) (p : ResourcePack), load_resource data = Except.ok p →
        (dictGet data "dependencies" = Except.ok none → p.dependencies = none) ∧
        (dictGet data "dependencies" = Except.ok (some (JValue.arr [])) →
          p.dependencies = some [])) := by
  constructor
  · intro data p h
    unfold load_behavior at h
    obtain ⟨hv, h1, h⟩ := exceptBind_inv h
    obtain ⟨hdr, h2, h⟩ := exceptBind_inv h
    obtain ⟨rawMods, h3, h⟩ := exceptBind_inv h
    obtain ⟨mods, h4, h⟩ := exceptBind_inv h
    obtain ⟨fv, h5, h⟩ := exceptBind_inv h
    obtain ⟨deps, h6, h⟩ := exceptBind_inv h
    obtain ⟨md, h7, h⟩ := exceptBind_inv h
    simp only [exceptPure_eq, Except.ok.injEq] at h
    subst h
    constructor
    · intro hnone
      rw [getDependencies_none _ hnone] at h6
      obtain rfl : deps = none := by simpa using h6.symm
      rfl
    · intro hempty
      rw [getDependencies_empty _ hempty] at h6
      obtain rfl : deps = some [] := by simpa using h6.symm
      rfl
  · intro data p h
    unfold load_resource at h
    obtain ⟨hv, h1, h⟩ := exceptBind_inv h
    obtain ⟨hdr, h2, h⟩ := exceptBind_inv h
    obtain ⟨rawMods, h3, h⟩ := exceptBind_inv h
    obtain ⟨mods, h4, h⟩ := exceptBind_inv h
    obtain ⟨fv, h5, h⟩ := exceptBind_inv h
    obtain ⟨deps, h6, h⟩ := exceptBind_inv h
    obtain ⟨md, h7, h⟩ := exceptBind_inv h
    simp only [exceptPure_eq, Except.ok.injEq] at h
    subst h
    constructor
    · intro hnone
      rw [getDependencies_none _ hnone] at h6
      obtain rfl : deps = none := by simpa using h6.symm
      rfl
    · intro hempty
      rw [getDependencies_empty _ hempty] at h6
      obtain rfl : deps = some [] := by simpa using h6.symm
      rfl

/-- Witness for C8 on the two concrete manifests. -/
theorem C8_dependencies_absent_vs_present_empty_witness :
    pC8a.dependencies = none ∧ pC8b.dependencies = some [] :=
  ⟨(C8_dependencies_absent_vs_present_empty.1 mC8a pC8a rfl).1 rfl,
   (C8_dependencies_absent_vs_present_empty.1 mC8b pC8b rfl).2 rfl⟩

/-! ## Round-trip lemmas: claim C6 -/

theorem mapM_asInt_map_num (v : List Int) :
    List.mapM JValue.asInt (v.map JValue.num) = Except.ok v := by
  induction v with
  | nil => rfl
  | cons a rest ih =>
    rw [List.map_cons, List.mapM_cons, ih]
    rfl

theorem asIntList_map_num (v : List Int) :
    (JValue.arr (v.map JValue.num)).asIntList = Except.ok v := by
  have h := mapM_asInt_map_num v
  simp only [JValue.asIntList, JValue.asArr, exceptBind_ok]
  exact h

theorem load_header_serialize (hd : ManifestHeader) :
    load_header (serialize_header hd) = Except.ok hd := by
  obtain ⟨name, desc, uuid, version, mev⟩ := hd
  cases mev with
  | none =>
    simp [load_header, serialize_header, dictItem, dictGet, List.lookup,
      JValue.asString, asIntList_map_num]
  | some v =>
    simp [load_header, serialize_header, dictItem, dictGet, List.lookup,
      JValue.asString, asIntList_map_num]

theorem parse_bp_module_wf_serialize (m : ModuleBase) (h : bpModuleWF m = true) :
    parse_bp_module (serialize_module m) = Except.ok (some m) := by
  obtain ⟨ty, uu, ve, de, la, en⟩ := m
  unfold bpModuleWF at h
  simp only [Bool.or_eq_true, Bool.and_eq_true, beq_iff_eq, Option.isSome_iff_exists] at h
  rcases h with ⟨⟨h1, h2⟩, h3⟩ | ⟨h1, l, h2⟩
  · subst h1
    subst h2
    subst h3
    cases de with
    | none =>
      simp [serialize_module, parse_bp_module, dictItem, dictGet, List.lookup,
        JValue.eqStr, JValue.asString, asIntList_map_num]
    | some d =>
      simp [serialize_module, parse_bp_module, dictItem, dictGet, List.lookup,
        JValue.eqStr, JValue.asString, asIntList_map_num]
  · subst h1
    subst h2
    cases de with
    | none =>
      cases en with
      | none =>
        simp [serialize_module, parse_bp_module, dictItem, dictGet, List.lookup,
          JValue.eqStr, JValue.asString, asIntList_map_num]
      | some e =>
        simp [serialize_module, parse_bp_module, dictItem, dictGet, List.lookup,
          JValue.eqStr, JValue.asString, asIntList_map_num]
    | some d =>
      cases en with
      | none =>
        simp [serialize_module, parse_bp_module, dictItem, dictGet, List.lookup,
          JValue.eqStr, JValue.asString, asIntList_map_num]
      | some e =>
        simp [serialize_module, parse_bp_module, dictItem, dictGet, List.lookup,
          JValue.eqStr, JValue.asString, asIntList_map_num]

theorem parse_rp_module_wf_serialize (m : ModuleBase) (h : rpModuleWF m = true) :
    parse_rp_module (serialize_module m) = Except.ok (some m) := by
  obtain ⟨ty, uu, ve, de, la, en⟩ := m
  unfold rpModuleWF at h
  simp only [Bool.or_eq_true, Bool.and_eq_true, beq_iff_eq] at h
  obtain ⟨⟨h1, h2⟩, h3⟩ := h
  subst h2
  subst h3
  rcases h1 with h1 | h1
  · subst h1
    cases de with
    | none =>
      simp [serialize_module, parse_rp_module, dictItem, dictGet, List.lookup,
        JValue.eqStr, JValue.asString, asIntList_map_num]
    | some d =>
      simp [serialize_module, parse_rp_module, dictItem, dictGet, List.lookup,
        JValue.eqStr, JValue.asString, asIntList_map_num]
  · subst h1
    cases de with
    | none =>
      simp [serialize_module, parse_rp_module, dictItem, dictGet, List.lookup,
        JValue.eqStr, JValue.asString, asIntList_map_num]
    | some d =>
      simp [serialize_module, parse_rp_module, dictItem, dictGet, List.lookup,
        JValue.eqStr, JValue.asString, asIntList_map_num]

theorem parse_bp_modules_wf_serialize (ms : List ModuleBase)
    (h : ms.all bpModuleWF = true) :
    parse_bp_modules (ms.map serialize_module) = Except.ok ms := by
  induction ms with
  | nil => rfl
  | cons m rest ih =>
    simp only [List.all_cons, Bool.and_eq_true] at h
    rw [List.map_cons, parse_bp_modules_cons,
      parse_bp_module_wf_serialize m h.1, ih h.2]

theorem parse_rp_modules_wf_serialize (ms : List ModuleBase)
    (h : ms.all rpModuleWF = true) :
    parse_rp_modules (ms.map serialize_module) = Except.ok ms := by
  induction ms with
  | nil => rfl
  | cons m rest ih =>
    simp only [List.all_cons, Bool.and_eq_true] at h
    rw [List.map_cons, parse_rp_modules_cons,
      parse_rp_module_wf_serialize m h.1, ih h.2]

theorem ofJson_toJson (dv : DepVersion) : DepVersion.ofJson dv.toJson = Except.ok dv := by
  cases dv with
  | pinned v => simp [DepVersion.toJson, DepVersion.ofJson, asIntList_map_num]
  | tag s => rfl

theorem load_dependency_serialize (d : Dependency) :
    load_dependency (serialize_dependency d) = Except.ok d := by
  obtain ⟨dv, du, dm⟩ := d
  cases du with
  | none =>
    cases dm with
    | none =>
      simp [load_dependency, serialize_dependency, dictItem, dictGet,
        List.lookup, ofJson_toJson, JValue.asString]
    | some n =>
      simp [load_dependency, serialize_dependency, dictItem, dictGet,
        List.lookup, ofJson_toJson, JValue.asString]
  | some u =>
    cases dm with
    | none =>
      simp [load_dependency, serialize_dependency, dictItem, dictGet,
        List.lookup, ofJson_toJson, JValue.asString]
    | some n =>
      simp [load_dependency, serialize_dependency, dictItem, dictGet,
        List.lookup, ofJson_toJson, JValue.asString]

theorem load_dependencies_serialize (ds : List Dependency) :
    load_dependencies (ds.map serialize_dependency) = Except.ok ds := by
  induction ds with
  | nil => rfl
  | cons d rest ih =>
    rw [List.map_cons]
    simp [load_dependencies, load_dependency_serialize, ih]

theorem load_behavior_serialize (p : BehaviorPack) (h : BPWellFormed p = true) :
    load_behavior (serialize_behavior p) = Except.ok (bpNorm p) := by
  obtain ⟨fv, hdr, ms, dp, md⟩ := p
  unfold BPWellFormed at h
  have hmods := parse_bp_modules_wf_serialize ms h
  rcases dp with _ | ⟨_ | ⟨d, ds'⟩⟩ <;>
    rcases md with _ | m
  case none.none =>
    simp [load_behavior, serialize_behavior, getRawModules, getFormatVersion,
      getDependencies, dictItem, dictGet, List.lookup, load_header_serialize,
      hmods, JValue.asArr, JValue.asInt, depsTruthy, bpNorm]
  case none.some =>
    cases hm : m.pyTruthy <;>
      simp [load_behavior, serialize_behavior, getRawModules, getFormatVersion,
        getDependencies, dictItem, dictGet, List.lookup, load_header_serialize,
        hmods, JValue.asArr, JValue.asInt, depsTruthy, bpNorm, hm]
  case some.nil.none =>
    simp [load_behavior, serialize_behavior, getRawModules, getFormatVersion,
      getDependencies, dictItem, dictGet, List.lookup, load_header_serialize,
      hmods, JValue.asArr, JValue.asInt, depsTruthy, bpNorm]
  case some.nil.some =>
    cases hm : m.pyTruthy <;>
      simp [load_behavior, serialize_behavior, getRawModules, getFormatVersion,
        getDependencies, dictItem, dictGet, List.lookup, load_header_serialize,
        hmods, JValue.asArr, JValue.asInt, depsTruthy, bpNorm, hm]
  case some.cons.none =>
    have hdeps : load_dependencies (serialize_dependency d :: List.map serialize_dependency ds') =
        Except.ok (d :: ds') := by
      simpa using load_dependencies_serialize (d :: ds')
    simp [load_behavior, serialize_behavior, getRawModules, getFormatVersion,
      getDependencies, dictItem, dictGet, List.lookup, load_header_serialize,
      hmods, hdeps, JValue.asArr, JValue.asInt, depsTruthy, bpNorm]
  case some.cons.some =>
    have hdeps : load_dependencies (serialize_dependency d :: List.map serialize_dependency ds') =
        Except.ok (d :: ds') := by
      simpa using load_dependencies_serialize (d :: ds')
    cases hm : m.pyTruthy <;>
      simp [load_behavior, serialize_behavior, getRawModules, getFormatVersion,
        getDependencies, dictItem, dictGet, List.lookup, load_header_serialize,
        hmods, hdeps, JValue.asArr, JValue.asInt, depsTruthy, bpNorm, hm]

theorem load_resource_serialize (p : ResourcePack) (h : RPWellFormed p = true) :
    load_resource (serialize_resource p) = Except.ok (rpNorm p) := by
  obtain ⟨fv, hdr, ms, dp, md⟩ := p
  unfold RPWellFormed at h
  have hmods := parse_rp_modules_wf_serialize ms h
  rcases dp with _ | ⟨_ | ⟨d, ds'⟩⟩ <;>
    rcases md with _ | m
  case none.none =>
    simp [load_resource, serialize_resource, getRawModules, getFormatVersion,
      getDependencies, dictItem, dictGet, List.lookup, load_header_serialize,
      hmods, JValue.asArr, JValue.asInt, depsTruthy, rpNorm]
  case none.some =>
    cases hm : m.pyTruthy <;>
      simp [load_resource, serialize_resource, getRawModules, getFormatVersion,
        getDependencies, dictItem, dictGet, List.lookup, load_header_serialize,
        hmods, JValue.asArr, JValue.asInt, depsTruthy, rpNorm, hm]
  case some.nil.none =>
    simp [load_resource, serialize_resource, getRawModules, getFormatVersion,
      getDependencies, dictItem, dictGet, List.lookup, load_header_serialize,
      hmods, JValue.asArr, JValue.asInt, depsTruthy, rpNorm]
  case some.nil.some =>
    cases hm : m.pyTruthy <;>
      simp [load_resource, serialize_resource, getRawModules, getFormatVersion,
        getDependencies, dictItem, dictGet, List.lookup, load_header_serialize,
        hmods, JValue.asArr, JValue.asInt, depsTruthy, rpNorm, hm]
  case some.cons.none =>
    have hdeps : load_dependencies (serialize_dependency d :: List.map serialize_dependency ds') =
        Except.ok (d :: ds') := by
      simpa using load_dependencies_serialize (d :: ds')
    simp [load_resource, serialize_resource, getRawModules, getFormatVersion,
      getDependencies, dictItem, dictGet, List.lookup, load_header_serialize,
      hmods, hdeps, JValue.asArr, JValue.asInt, depsTruthy, rpNorm]
  case some.cons.some =>
    have hdeps : load_dependencies (serialize_dependency d :: List.map serialize_dependency ds') =
        Except.ok (d :: ds') := by
      simpa using load_dependencies_serialize (d :: ds')
    cases hm : m.pyTruthy <;>
      simp [load_resource, serialize_resource, getRawModules, getFormatVersion,
        getDependencies, dictItem, dictGet, List.lookup, load_header_serialize,
        hmods, hdeps, JValue.asArr, JValue.asInt, depsTruthy, rpNorm, hm]

theorem serialize_bpNorm (p : BehaviorPack) :
    serialize_behavior (bpNorm p) = serialize_behavior p := by
  obtain ⟨fv, hdr, ms, dp, md⟩ := p
  rcases dp with _ | ⟨_ | ⟨d, ds'⟩⟩ <;> rcases md with _ | m <;>
    simp [serialize_behavior, bpNorm, depsTruthy] <;>
    cases hm : m.pyTruthy <;> simp [hm]

theorem serialize_rpNorm (p : ResourcePack) :
    serialize_resource (rpNorm p) = serialize_resource p := by
  obtain ⟨fv, hdr, ms, dp, md⟩ := p
  rcases dp with _ | ⟨_ | ⟨d, ds'⟩⟩ <;> rcases md with _ | m <;>
    simp [serialize_resource, rpNorm, depsTruthy] <;>
    cases hm : m.pyTruthy <;> simp [hm]

/-- C6: serializing a representable pack, loading the output back, and
serializing the reloaded pack again produces the identical JSON value — and
since the printer (stable key order, fixed indentation) is a deterministic
function of that value, byte-identical text. -/
theorem C6_write_load_write_round_trip :
    (∀ p : BehaviorPack, BPWellFormed p = true →
        ∃ p2, load_behavior (serialize_behavior p) = Except.ok p2 ∧
          serialize_behavior p2 = serialize_behavior p) ∧
    (∀ p : ResourcePack, RPWellFormed p = true →
        ∃ p2, load_resource (serialize_resource p) = Except.ok p2 ∧
          serialize_resource p2 = serialize_resource p) :=
  ⟨fun p h => ⟨bpNorm p, load_behavior_serialize p h, serialize_bpNorm p⟩,
   fun p h => ⟨rpNorm p, load_resource_serialize p h, serialize_rpNorm p⟩⟩

/-- Witness for C6 on the two concrete packs. -/
theorem C6_write_load_write_round_trip_witness :
    (∃ p2, load_behavior (serialize_behavior bpC6) = Except.ok p2 ∧
        serialize_behavior p2 = serialize_behavior bpC6) ∧
    (∃ p2, load_resource (serialize_resource rpC6) = Except.ok p2 ∧
        serialize_resource p2 = serialize_resource rpC6) :=
  ⟨C6_write_load_write_round_trip.1 bpC6 rfl,
   C6_write_load_write_round_trip.2 rpC6 rfl⟩

end AdvancePack
